import Mathlib

/-!
Verification of the media_optimizer job-control package
(`pkg/mediaopt/mediaopt.go`, the current version of the file) against its
natural-language specification.

Shallow embedding conventions:
* Go strings are modelled as `List Char` (`GoString`).  The Go standard
  library helpers used by the package (`strings.HasPrefix`,
  `strings.TrimPrefix`, `strings.TrimSpace`, `strings.ToLower`,
  `strings.Contains`, `strconv.ParseInt`, `strconv.ParseFloat`) are
  translated below as executable functions on `GoString`.
* `float64` values are modelled as exact rationals (`ℚ`).  The program only
  performs division and comparison on these values, so the rational model
  is faithful for every quantity any claim mentions.
* External effects (probe subprocesses, the filesystem, the transcoding
  engine) are resolved by an explicit environment record; `OptimizeMedia`
  is translated as a function from that environment to its result, the
  ordered list of effect events it performs, the temporary files that
  exist after it returns, and the final registry state for the job key.
* The progress-monitor goroutine of `OptimizeMedia` is translated as
  `runMonitor`, a function over the timed sequence of reads it performs on
  the progress file.
-/

namespace MediaOpt

/-- Go strings, modelled as lists of characters. -/
abbrev GoString := List Char

/-- `strings.HasPrefix s pre`. -/
def goHasPrefix (s pre : GoString) : Bool := pre.isPrefixOf s

/-- `strings.TrimPrefix s pre`: drops `pre` when it is a prefix, else
returns `s` unchanged. -/
def goTrimPrefix (s pre : GoString) : GoString :=
  if pre.isPrefixOf s then s.drop pre.length else s

/-- ASCII lower-casing of one character.  `strings.ToLower` is
Unicode-aware in Go; every string the program compares is ASCII, so the
ASCII case map is the faithful restriction. -/
def asciiToLower (c : Char) : Char :=
  if 'A' ≤ c ∧ c ≤ 'Z' then Char.ofNat (c.toNat + 32) else c

/-- `strings.ToLower`. -/
def goToLower (s : GoString) : GoString := s.map asciiToLower

/-- `strings.Contains s sub`: `sub` occurs as a contiguous substring of
`s` (the empty pattern occurs in every string, as in Go). -/
def goContains (s sub : GoString) : Bool :=
  sub.isPrefixOf s ||
    match s with
    | [] => false
    | _ :: t => goContains t sub

/-- Whitespace predicate used by `strings.TrimSpace` (the ASCII cases of
`unicode.IsSpace`; the probe output the program trims is ASCII). -/
def isGoSpace (c : Char) : Bool :=
  c = ' ' || c = '\t' || c = '\n' || c = Char.ofNat 11 || c = Char.ofNat 12 || c = '\r'

/-- `strings.TrimSpace`: strips whitespace from both ends. -/
def goTrimSpace (s : GoString) : GoString :=
  ((s.dropWhile isGoSpace).reverse.dropWhile isGoSpace).reverse

/-- ASCII decimal digit test. -/
def isDigit (c : Char) : Bool := '0' ≤ c && c ≤ '9'

/-- Value of a list of decimal digit characters. -/
def digitsVal (l : List Char) : Nat :=
  l.foldl (fun n c => n * 10 + (c.toNat - '0'.toNat)) 0

/-- A nonempty all-digit run, or failure. -/
def digitsToNat (l : List Char) : Option Nat :=
  if l ≠ [] ∧ l.all isDigit then some (digitsVal l) else none

/-- `strconv.ParseInt s 10 64`: optional sign, then a nonempty run of
decimal digits, with the int64 range check.  Any failure (empty input,
stray characters, overflow) is `none`; the Go caller only inspects the
error, so the clamped value Go also returns is not modelled. -/
def parseGoInt64 (s : GoString) : Option Int :=
  match s with
  | [] => none
  | '+' :: rest =>
    (digitsToNat rest).bind fun n => if n ≤ 2 ^ 63 - 1 then some (n : Int) else none
  | '-' :: rest =>
    (digitsToNat rest).bind fun n => if n ≤ 2 ^ 63 then some (-(n : Int)) else none
  | _ =>
    (digitsToNat s).bind fun n => if n ≤ 2 ^ 63 - 1 then some (n : Int) else none

/-- Splits a string at the first exponent marker `e`/`E`. -/
def splitExp : GoString → GoString × Option GoString
  | [] => ([], none)
  | c :: r =>
    if c = 'e' ∨ c = 'E' then ([], some r)
    else
      let (m, e) := splitExp r
      (c :: m, e)

/-- Splits a string at the first decimal point. -/
def splitDot : GoString → GoString × Option GoString
  | [] => ([], none)
  | c :: r =>
    if c = '.' then ([], some r)
    else
      let (m, e) := splitDot r
      (c :: m, e)

/-- Exponent part of a decimal float: optional sign then nonempty digits. -/
def parseExpPart (s : GoString) : Option Int :=
  match s with
  | '+' :: rest => (digitsToNat rest).map fun n => (n : Int)
  | '-' :: rest => (digitsToNat rest).map fun n => -(n : Int)
  | rest => (digitsToNat rest).map fun n => (n : Int)

/-- Leading sign of a decimal literal, as a factor, with the remaining
characters. -/
def splitSign (s : GoString) : ℚ × GoString :=
  match s with
  | '+' :: r => (1, r)
  | '-' :: r => (-1, r)
  | r => (1, r)

/-- `strconv.ParseFloat s 64`, restricted to finite decimal notation:
optional sign, digits with an optional fractional part (at least one
digit in the mantissa), and an optional `e`/`E` exponent.  The value is
returned exactly as a rational; Go's `Inf`/`NaN`/hexadecimal-float forms
have no rational counterpart and are outside the model (no claim
mentions them). -/
def parseGoFloat (s : GoString) : Option ℚ :=
  match s with
  | [] => none
  | _ =>
    let sgn := (splitSign s).1
    let (mant, expPart) := splitExp (splitSign s).2
    let (ip, fpOpt) := splitDot mant
    let fp := fpOpt.getD []
    if ip.all isDigit && fp.all isDigit && !(ip.isEmpty && fp.isEmpty) then
      let mval : ℚ := sgn * ((digitsVal ip : ℚ) + (digitsVal fp : ℚ) / 10 ^ fp.length)
      match expPart with
      | none => some mval
      | some es =>
        match parseExpPart es with
        | none => none
        | some e => some (mval * 10 ^ e)
    else none

/-! ### Stream selection (`getEnglishAudioStream`, mediaopt.go lines 83-124)

The Go function runs `ffprobe -show_streams`, decodes the JSON into
`[]StreamInfo`, and then selects a stream.  `StreamInfo` is the decoded
record: the Go struct declares `Index`, `CodecType` and a `Language`
field mapped to the JSON key `tags`.  The probe output also carries a
per-stream title, which the Go struct does not decode; the field is kept
here so that inputs from the specification's examples can be written
down, and the selection logic — translated from the source — never reads
it.  The subprocess/JSON layer is resolved by the caller's environment;
the selection itself is the pure function below. -/

structure StreamInfo where
  index : Int
  codecType : GoString
  language : GoString
  title : GoString
deriving DecidableEq

/-- First pass of `getEnglishAudioStream`: an audio stream whose
lower-cased tags contain `"eng"`. -/
def isEngAudio (s : StreamInfo) : Bool :=
  s.codecType == "audio".toList && goContains (goToLower s.language) "eng".toList

/-- Second pass: any audio stream. -/
def isAudio (s : StreamInfo) : Bool := s.codecType == "audio".toList

/-- `getEnglishAudioStream` (selection over the decoded stream list):
first audio stream whose tags contain `"eng"`, else the first audio
stream, else the error `"no suitable audio stream found"`. -/
def getEnglishAudioStream (streams : List StreamInfo) : Except GoString Int :=
  match streams.find? isEngAudio with
  | some s => .ok s.index
  | none =>
    match streams.find? isAudio with
    | some s => .ok s.index
    | none => .error "no suitable audio stream found".toList

/-! ### Duration probe (`getDuration`, mediaopt.go lines 161-181) -/

/-- `getDuration`: the probe subprocess either fails (`none` input,
modelling a non-zero exit of `cmd.Output()`) or yields its stdout; the
output is trimmed and parsed with `strconv.ParseFloat`.  The parsed
value is returned with no further check — in particular there is no
positivity check. -/
def getDuration (probeOut : Option GoString) : Option ℚ :=
  match probeOut with
  | none => none
  | some out => parseGoFloat (goTrimSpace out)

/-! ### Progress parsing (`parseProgress`, mediaopt.go lines 191-202) -/

/-- The progress-line key the monitor recognises. -/
def outTimePrefix : GoString := "out_time_ms=".toList

/-- `parseProgress line duration`: for a line starting with
`out_time_ms=`, parse the remainder as an `int64`; on parse failure
return `0`, otherwise `timeMs / 1e6 / duration * 100`.  Lines without
the prefix return the `-1` no-sample marker. -/
def parseProgress (line : GoString) (duration : ℚ) : ℚ :=
  if goHasPrefix line outTimePrefix = true then
    match parseGoInt64 (goTrimPrefix line outTimePrefix) with
    | none => 0
    | some timeMs => (timeMs : ℚ) / 1000000 / duration * 100
  else -1

/-! ### Process registry and `CleanupProcess` (mediaopt.go lines 204-226)

The package keeps a mutex-guarded map from input-file key to the running
command.  All claims concern a single job key, so the registry is
modelled as the map's entry for that key: `Option ProcHandle`.
`ProcHandle.hasProcess` is `cmd.Process != nil`, i.e. whether the
command has been started. -/

structure ProcHandle where
  hasProcess : Bool
deriving DecidableEq

/-- The effect calls `OptimizeMedia` and `CleanupProcess` perform, in
program order.  `priorExited` marks the old process exiting voluntarily
inside the grace-period wait; `cleanupKill` marks the forced kill;
`procExit` marks `cmd.Wait()` returning for the new process. -/
inductive Event where
  | mkdirTemp
  | cleanupSigterm
  | priorExited
  | cleanupKill
  | cleanupRemove
  | probeStreams
  | probeDuration
  | statSize
  | createProgressFile
  | registryRegister
  | procStart
  | procExit
  | registryRemove
  | removeTempOutput
  | renameOutput
  | removeReportFile
  | removeProgressFile
deriving DecidableEq

/-- The termination grace period, in seconds (`5 * time.Second` at
mediaopt.go line 219). -/
def termGracePeriod : Nat := 5

/-- `CleanupProcess` for the job key: if a command is registered and has
a started process, send SIGTERM and wait up to the grace period — the
process either exits voluntarily (`exitsWithinGrace`, an environment
fact about the process being terminated) or is force-killed — and in
every case delete the registry entry.  Returns the performed events and
the new registry entry. -/
def CleanupProcess (reg : Option ProcHandle) (exitsWithinGrace : Bool) :
    List Event × Option ProcHandle :=
  match reg with
  | none => ([], none)
  | some h =>
    if h.hasProcess then
      (Event.cleanupSigterm ::
        (if exitsWithinGrace then [Event.priorExited] else [Event.cleanupKill]) ++
          [Event.cleanupRemove],
        none)
    else ([Event.cleanupRemove], none)

/-! ### `OptimizeMedia` (mediaopt.go lines 240-437) -/

/-- The distinct `fmt.Errorf` sites of `OptimizeMedia`, in program
order. -/
inductive FailKind where
  | inputMissing
  | mkdirFailed
  | durationFailed
  | sizeFailed
  | progressFileFailed
  | stderrPipeFailed
  | startFailed
  | engineFailed
  | renameFailed
deriving DecidableEq

/-- The Go `OptimizationResult`, with `Error` abstracted to the site
that produced it (`Message` carries no claim-relevant information). -/
structure OptimizationResult where
  success : Bool
  error : Option FailKind
deriving DecidableEq

/-- Which of the files touched by one run exist on disk after the run
returns: the temporary output, the temporary progress file, the FFREPORT
log, and the destination file.  All are absent before the run. -/
structure Files where
  tempOutput : Bool
  progressFile : Bool
  reportFile : Bool
  dest : Bool
deriving DecidableEq

/-- The on-disk state before the run. -/
def Files.initial : Files := ⟨false, false, false, false⟩

/-- Resolution of every external effect one `OptimizeMedia` run can
perform, in program order: filesystem checks, the registry entry a prior
job left for this key, the two probe subprocesses, temp-file creation,
pipe creation, engine start, engine exit status (a stall-triggered
SIGTERM surfaces as a non-zero exit status here), and the final rename.
`sizeOk` is the `os.Stat` used only for the thread-count heuristic
(lines 275-287); the heuristic itself affects no claim. -/
structure Env where
  inputExists : Bool
  mkdirOk : Bool
  prior : Option ProcHandle
  priorExitsWithinGrace : Bool
  streams : Option (List StreamInfo)
  durationOut : Option GoString
  sizeOk : Bool
  progressFileOk : Bool
  stderrPipeOk : Bool
  startOk : Bool
  exitOk : Bool
  renameOk : Bool

/-- What one run produced: the returned result, the ordered effect
trace, the files existing after return, and the registry entry for the
key after return. -/
structure RunOutcome where
  result : OptimizationResult
  events : List Event
  files : Files
  registry : Option ProcHandle

/-- `OptimizeMedia`, translated branch by branch from mediaopt.go.  The
engine, once started, creates both the temporary output and the FFREPORT
log; `defer os.Remove(progressFile.Name())` (line 299) removes the
progress file on every return path after its creation. -/
def OptimizeMedia (env : Env) : RunOutcome :=
  -- lines 244-249: input existence check, before any other effect
  if env.inputExists = false then
    ⟨⟨false, some .inputMissing⟩, [], Files.initial, env.prior⟩
  -- lines 251-256: MkdirAll of the temp directory
  else if env.mkdirOk = false then
    ⟨⟨false, some .mkdirFailed⟩, [.mkdirTemp], Files.initial, env.prior⟩
  else
    -- line 258: terminate and deregister any prior job under this key
    let clean := CleanupProcess env.prior env.priorExitsWithinGrace
    let evs0 := Event.mkdirTemp :: clean.1
    -- lines 260-265: stream selection; on selector error the index
    -- falls back to 0 and the job proceeds
    let _audioIdx : Int :=
      match env.streams with
      | none => 0
      | some ss =>
        match getEnglishAudioStream ss with
        | .ok i => i
        | .error _ => 0
    let evs1 := evs0 ++ [Event.probeStreams]
    -- lines 267-273: duration probe; failure aborts before any transcode
    match getDuration env.durationOut with
    | none =>
      ⟨⟨false, some .durationFailed⟩, evs1 ++ [.probeDuration], Files.initial, clean.2⟩
    | some _duration =>
      let evs2 := evs1 ++ [Event.probeDuration]
      -- lines 275-281: file-size stat
      if env.sizeOk = false then
        ⟨⟨false, some .sizeFailed⟩, evs2 ++ [.statSize], Files.initial, clean.2⟩
      else
        let evs3 := evs2 ++ [Event.statSize]
        -- lines 292-300: create the progress temp file; its removal is deferred
        if env.progressFileOk = false then
          ⟨⟨false, some .progressFileFailed⟩, evs3 ++ [.createProgressFile],
            Files.initial, clean.2⟩
        else
          let evs4 := evs3 ++ [Event.createProgressFile]
          -- lines 330-332: the new command is registered before the
          -- pipes are created and before it is started
          let evs5 := evs4 ++ [Event.registryRegister]
          if env.stderrPipeOk = false then
            -- lines 334-340: early return; the deferred call removes the
            -- progress file; the just-registered, never-started handle
            -- stays in the registry
            ⟨⟨false, some .stderrPipeFailed⟩, evs5 ++ [.removeProgressFile],
              ⟨false, false, false, false⟩, some ⟨false⟩⟩
          else if env.startOk = false then
            -- lines 342-347: start failed, engine never ran
            ⟨⟨false, some .startFailed⟩, evs5 ++ [.removeProgressFile],
              ⟨false, false, false, false⟩, some ⟨false⟩⟩
          else
            let evs6 := evs5 ++ [Event.procStart]
            -- lines 406-410: wait for exit, then delete the registry entry
            let evs7 := evs6 ++ [Event.procExit, Event.registryRemove]
            if env.exitOk = false then
              -- lines 412-419: engine failure — the temp output is
              -- removed; the FFREPORT log is not removed on this path
              ⟨⟨false, some .engineFailed⟩,
                evs7 ++ [.removeTempOutput, .removeProgressFile],
                ⟨false, false, true, false⟩, none⟩
            else if env.renameOk = false then
              -- lines 421-428: rename failed — error surfaced, temp
              -- output removed; the FFREPORT log again survives
              ⟨⟨false, some .renameFailed⟩,
                evs7 ++ [.renameOutput, .removeTempOutput, .removeProgressFile],
                ⟨false, false, true, false⟩, none⟩
            else
              -- lines 430-436: success — output renamed into place,
              -- FFREPORT log removed, progress file removed by the defer
              ⟨⟨true, none⟩,
                evs7 ++ [.renameOutput, .removeReportFile, .removeProgressFile],
                ⟨false, false, false, true⟩, none⟩

/-! ### The progress-monitor goroutine (mediaopt.go lines 354-392)

The goroutine repeatedly calls `ReadString` on the progress file.  Each
read either yields a line at some instant, or hits end-of-file while the
process is still running (in which case the code sleeps and retries,
with no other action).  The loop ends when end-of-file coincides with
the process having exited — modelled by the feed list ending.  Times are
in seconds on the monotonic clock. -/

inductive FeedItem where
  /-- a full line became available at time `t` -/
  | line (t : Nat) (s : GoString)
  /-- `ReadString` hit EOF at time `t` while the process was still
  running: the code sleeps 100ms and retries, performing no check -/
  | eofIdle (t : Nat)
deriving DecidableEq

/-- `progressStallTimeout` (5 minutes, line 356), in seconds. -/
def progressStallTimeout : Nat := 300

/-- The two loop-carried variables of the monitor (lines 354-355):
`lastProgress` and `lastProgressTime`. -/
structure MonitorState where
  lastProgress : ℚ
  lastProgressTime : Nat

/-- The monitor loop.  Returns the list of values delivered to the
`OnProgress` callback, in order, and whether the stall branch fired
(SIGTERM sent to the process, loop abandoned).  Mirrors lines 362-391:
a parsed value `≥ 0` first updates `lastProgress`/`lastProgressTime`
when strictly increasing, otherwise checks the stall timeout (SIGTERM
and `break` — before any delivery — when exceeded), and is then
delivered to the callback. -/
def runMonitor (duration : ℚ) : MonitorState → List FeedItem → List ℚ × Bool
  | _, [] => ([], false)
  | st, .eofIdle _ :: rest => runMonitor duration st rest
  | st, .line t s :: rest =>
    if parseProgress s duration ≥ 0 then
      if parseProgress s duration > st.lastProgress then
        (parseProgress s duration :: (runMonitor duration ⟨parseProgress s duration, t⟩ rest).1,
          (runMonitor duration ⟨parseProgress s duration, t⟩ rest).2)
      else if t - st.lastProgressTime > progressStallTimeout then
        ([], true)
      else
        (parseProgress s duration :: (runMonitor duration st rest).1,
          (runMonitor duration st rest).2)
    else runMonitor duration st rest

/-- Whether a feed item is an EOF poll (no line available). -/
def isIdle : FeedItem → Bool
  | .eofIdle _ => true
  | .line _ _ => false

/-- The well-formed (non-negative) parsed samples of a feed, in order —
what the monitor delivers when no stall fires. -/
def validSamples (duration : ℚ) : List FeedItem → List ℚ
  | [] => []
  | .eofIdle _ :: rest => validSamples duration rest
  | .line _ s :: rest =>
    if parseProgress s duration ≥ 0 then
      parseProgress s duration :: validSamples duration rest
    else validSamples duration rest

/-! ### Per-key process liveness accounting -/

/-- Running count of live processes under the job key along an event
trace: the new process becomes live at `procStart` and dead at
`procExit`; the prior process dies either voluntarily within the grace
period (`priorExited`) or at the forced kill (`cleanupKill`). -/
def liveStep (n : Nat) : Event → Nat
  | .procStart => n + 1
  | .procExit => n - 1
  | .priorExited => n - 1
  | .cleanupKill => n - 1
  | _ => n

/-- Live-process count contributed by the registry entry before the run. -/
def liveInit (reg : Option ProcHandle) : Nat :=
  match reg with
  | some h => if h.hasProcess then 1 else 0
  | none => 0

/-- Executable check that the live count stays `≤ 1` after every step. -/
def liveChkGo : Nat → List Event → Bool
  | _, [] => true
  | n, e :: rest =>
    let m := liveStep n e
    decide (m ≤ 1) && liveChkGo m rest

/-- Executable check that the live count is `≤ 1` initially and after
every step of the trace. -/
def liveChk (n : Nat) (l : List Event) : Bool :=
  decide (n ≤ 1) && liveChkGo n l

/-! ### Concrete environments used as test inputs

Field order: inputExists, mkdirOk, prior, priorExitsWithinGrace,
streams, durationOut, sizeOk, progressFileOk, stderrPipeOk, startOk,
exitOk, renameOk. -/

/-- A run where the engine starts and then exits with a non-zero
status (probe reports duration 10). -/
def envEngineFail : Env :=
  ⟨true, true, none, true, none, some "10".toList, true, true, true, true, false, true⟩

/-- A run where the engine succeeds but the final rename fails. -/
def envRenameFail : Env :=
  ⟨true, true, none, true, none, some "10".toList, true, true, true, true, true, false⟩

/-- A run whose input file does not exist. -/
def envMissingInput : Env :=
  ⟨false, true, none, true, none, none, true, true, true, true, true, true⟩

/-- A run where the duration probe fails (everything else would
succeed). -/
def envProbeFail : Env :=
  ⟨true, true, none, true, none, none, true, true, true, true, true, true⟩

/-- A second submission for a key whose prior job is still active (its
process is running), with the new run succeeding. -/
def envSupersede : Env :=
  ⟨true, true, some ⟨true⟩, true, none, some "10".toList, true, true, true, true, true, true⟩

end MediaOpt

namespace MediaOpt

/-! ## Helper lemmas -/

theorem parseProgress_out5M : parseProgress "out_time_ms=5000000".toList 10 = 50 := by
  have h1 : goHasPrefix "out_time_ms=5000000".toList outTimePrefix = true := by decide
  have h2 : parseGoInt64 (goTrimPrefix "out_time_ms=5000000".toList outTimePrefix) =
      some 5000000 := by decide
  simp only [parseProgress, h1, if_true, h2]
  norm_num

theorem parseProgress_out20M : parseProgress "out_time_ms=20000000".toList 10 = 200 := by
  have h1 : goHasPrefix "out_time_ms=20000000".toList outTimePrefix = true := by decide
  have h2 : parseGoInt64 (goTrimPrefix "out_time_ms=20000000".toList outTimePrefix) =
      some 20000000 := by decide
  simp only [parseProgress, h1, if_true, h2]
  norm_num

theorem parseProgress_out1M : parseProgress "out_time_ms=1000000".toList 10 = 10 := by
  have h1 : goHasPrefix "out_time_ms=1000000".toList outTimePrefix = true := by decide
  have h2 : parseGoInt64 (goTrimPrefix "out_time_ms=1000000".toList outTimePrefix) =
      some 1000000 := by decide
  simp only [parseProgress, h1, if_true, h2]
  norm_num

theorem parseProgress_out0 : parseProgress "out_time_ms=0".toList 10 = 0 := by
  have h1 : goHasPrefix "out_time_ms=0".toList outTimePrefix = true := by decide
  have h2 : parseGoInt64 (goTrimPrefix "out_time_ms=0".toList outTimePrefix) =
      some 0 := by decide
  simp only [parseProgress, h1, if_true, h2]
  norm_num

/-- No `CleanupProcess` trace contains a `procStart` event. -/
theorem cleanup_no_procStart (reg : Option ProcHandle) (g : Bool) :
    Event.procStart ∉ (CleanupProcess reg g).1 := by
  cases reg with
  | none => simp [CleanupProcess]
  | some h =>
    cases h with
    | mk hp => cases hp <;> cases g <;> decide

/-- The executable live check implies the live-count bound on every
prefix of the trace. -/
theorem liveChkGo_sound :
    ∀ (l : List Event) (n : Nat), liveChkGo n l = true → n ≤ 1 →
      ∀ p, p <+: l → p.foldl liveStep n ≤ 1 := by
  intro l
  induction l with
  | nil =>
    intro n _ h0 p hp
    rw [List.prefix_nil] at hp
    subst hp
    simpa using h0
  | cons e rest ih =>
    intro n hgo h0 p hp
    rcases p with _ | ⟨q, p'⟩
    · simpa using h0
    · rw [List.cons_prefix_cons] at hp
      obtain ⟨rfl, hp'⟩ := hp
      unfold liveChkGo at hgo
      rw [Bool.and_eq_true, decide_eq_true_eq] at hgo
      obtain ⟨hm, hrest⟩ := hgo
      simpa [List.foldl] using ih (liveStep n q) hrest hm p' hp'

theorem liveChk_sound {n : Nat} {l : List Event} (h : liveChk n l = true) :
    ∀ p, p <+: l → p.foldl liveStep n ≤ 1 := by
  unfold liveChk at h
  rw [Bool.and_eq_true, decide_eq_true_eq] at h
  exact liveChkGo_sound l n h.2 h.1

/-- Exhaustive branch analysis of `OptimizeMedia`: every run takes
exactly one of the ten return paths, each listed with the environment
conditions that select it and the full outcome it produces. -/
theorem OptimizeMedia_branches (env : Env) :
    (env.inputExists = false ∧
      OptimizeMedia env = ⟨⟨false, some .inputMissing⟩, [], Files.initial, env.prior⟩) ∨
    (env.inputExists = true ∧ env.mkdirOk = false ∧
      OptimizeMedia env =
        ⟨⟨false, some .mkdirFailed⟩, [.mkdirTemp], Files.initial, env.prior⟩) ∨
    (env.inputExists = true ∧ env.mkdirOk = true ∧
      getDuration env.durationOut = none ∧
      OptimizeMedia env =
        ⟨⟨false, some .durationFailed⟩,
          Event.mkdirTemp ::
            (CleanupProcess env.prior env.priorExitsWithinGrace).1 ++
              [.probeStreams, .probeDuration],
          Files.initial, (CleanupProcess env.prior env.priorExitsWithinGrace).2⟩) ∨
    (env.inputExists = true ∧ env.mkdirOk = true ∧
      (getDuration env.durationOut).isSome = true ∧ env.sizeOk = false ∧
      OptimizeMedia env =
        ⟨⟨false, some .sizeFailed⟩,
          Event.mkdirTemp ::
            (CleanupProcess env.prior env.priorExitsWithinGrace).1 ++
              [.probeStreams, .probeDuration, .statSize],
          Files.initial, (CleanupProcess env.prior env.priorExitsWithinGrace).2⟩) ∨
    (env.inputExists = true ∧ env.mkdirOk = true ∧
      (getDuration env.durationOut).isSome = true ∧ env.sizeOk = true ∧
      env.progressFileOk = false ∧
      OptimizeMedia env =
        ⟨⟨false, some .progressFileFailed⟩,
          Event.mkdirTemp ::
            (CleanupProcess env.prior env.priorExitsWithinGrace).1 ++
              [.probeStreams, .probeDuration, .statSize, .createProgressFile],
          Files.initial, (CleanupProcess env.prior env.priorExitsWithinGrace).2⟩) ∨
    (env.inputExists = true ∧ env.mkdirOk = true ∧
      (getDuration env.durationOut).isSome = true ∧ env.sizeOk = true ∧
      env.progressFileOk = true ∧ env.stderrPipeOk = false ∧
      OptimizeMedia env =
        ⟨⟨false, some .stderrPipeFailed⟩,
          Event.mkdirTemp ::
            (CleanupProcess env.prior env.priorExitsWithinGrace).1 ++
              [.probeStreams, .probeDuration, .statSize, .createProgressFile,
                .registryRegister, .removeProgressFile],
          ⟨false, false, false, false⟩, some ⟨false⟩⟩) ∨
    (env.inputExists = true ∧ env.mkdirOk = true ∧
      (getDuration env.durationOut).isSome = true ∧ env.sizeOk = true ∧
      env.progressFileOk = true ∧ env.stderrPipeOk = true ∧ env.startOk = false ∧
      OptimizeMedia env =
        ⟨⟨false, some .startFailed⟩,
          Event.mkdirTemp ::
            (CleanupProcess env.prior env.priorExitsWithinGrace).1 ++
              [.probeStreams, .probeDuration, .statSize, .createProgressFile,
                .registryRegister, .removeProgressFile],
          ⟨false, false, false, false⟩, some ⟨false⟩⟩) ∨
    (env.inputExists = true ∧ env.mkdirOk = true ∧
      (getDuration env.durationOut).isSome = true ∧ env.sizeOk = true ∧
      env.progressFileOk = true ∧ env.stderrPipeOk = true ∧ env.startOk = true ∧
      env.exitOk = false ∧
      OptimizeMedia env =
        ⟨⟨false, some .engineFailed⟩,
          Event.mkdirTemp ::
            (CleanupProcess env.prior env.priorExitsWithinGrace).1 ++
              [.probeStreams, .probeDuration, .statSize, .createProgressFile,
                .registryRegister, .procStart, .procExit, .registryRemove,
                .removeTempOutput, .removeProgressFile],
          ⟨false, false, true, false⟩, none⟩) ∨
    (env.inputExists = true ∧ env.mkdirOk = true ∧
      (getDuration env.durationOut).isSome = true ∧ env.sizeOk = true ∧
      env.progressFileOk = true ∧ env.stderrPipeOk = true ∧ env.startOk = true ∧
      env.exitOk = true ∧ env.renameOk = false ∧
      OptimizeMedia env =
        ⟨⟨false, some .renameFailed⟩,
          Event.mkdirTemp ::
            (CleanupProcess env.prior env.priorExitsWithinGrace).1 ++
              [.probeStreams, .probeDuration, .statSize, .createProgressFile,
                .registryRegister, .procStart, .procExit, .registryRemove,
                .renameOutput, .removeTempOutput, .removeProgressFile],
          ⟨false, false, true, false⟩, none⟩) ∨
    (env.inputExists = true ∧ env.mkdirOk = true ∧
      (getDuration env.durationOut).isSome = true ∧ env.sizeOk = true ∧
      env.progressFileOk = true ∧ env.stderrPipeOk = true ∧ env.startOk = true ∧
      env.exitOk = true ∧ env.renameOk = true ∧
      OptimizeMedia env =
        ⟨⟨true, none⟩,
          Event.mkdirTemp ::
            (CleanupProcess env.prior env.priorExitsWithinGrace).1 ++
              [.probeStreams, .probeDuration, .statSize, .createProgressFile,
                .registryRegister, .procStart, .procExit, .registryRemove,
                .renameOutput, .removeReportFile, .removeProgressFile],
          ⟨false, false, false, true⟩, none⟩) := by
  rcases env with ⟨ie, mk, prior, pg, streams, durOut, sz, pf, sp, stk, ex, rn⟩
  cases ie with
  | false => exact Or.inl ⟨rfl, by simp [OptimizeMedia]⟩
  | true =>
  refine Or.inr ?_
  cases mk with
  | false => exact Or.inl ⟨rfl, rfl, by simp [OptimizeMedia]⟩
  | true =>
  refine Or.inr ?_
  rcases hd : getDuration durOut with _ | d
  · exact Or.inl ⟨rfl, rfl, rfl, by
      simp only [OptimizeMedia]
      simp [hd, List.append_assoc]⟩
  refine Or.inr ?_
  cases sz with
  | false =>
    exact Or.inl ⟨rfl, rfl, rfl, rfl, by
      simp only [OptimizeMedia]
      simp [hd, List.append_assoc]⟩
  | true =>
  refine Or.inr ?_
  cases pf with
  | false =>
    exact Or.inl ⟨rfl, rfl, rfl, rfl, rfl, by
      simp only [OptimizeMedia]
      simp [hd, List.append_assoc]⟩
  | true =>
  refine Or.inr ?_
  cases sp with
  | false =>
    exact Or.inl ⟨rfl, rfl, rfl, rfl, rfl, rfl, by
      simp only [OptimizeMedia]
      simp [hd, List.append_assoc]⟩
  | true =>
  refine Or.inr ?_
  cases stk with
  | false =>
    exact Or.inl ⟨rfl, rfl, rfl, rfl, rfl, rfl, rfl, by
      simp only [OptimizeMedia]
      simp [hd, List.append_assoc]⟩
  | true =>
  refine Or.inr ?_
  cases ex with
  | false =>
    exact Or.inl ⟨rfl, rfl, rfl, rfl, rfl, rfl, rfl, rfl, by
      simp only [OptimizeMedia]
      simp [hd, List.append_assoc]⟩
  | true =>
  refine Or.inr ?_
  cases rn with
  | false =>
    exact Or.inl ⟨rfl, rfl, rfl, rfl, rfl, rfl, rfl, rfl, rfl, by
      simp only [OptimizeMedia]
      simp [hd, List.append_assoc]⟩
  | true =>
    exact Or.inr ⟨rfl, rfl, rfl, rfl, rfl, rfl, rfl, rfl, rfl, by
      simp only [OptimizeMedia]
      simp [hd, List.append_assoc]⟩

theorem parseGoFloat_zero : parseGoFloat "0".toList = some 0 := by
  have h0 : splitSign "0".toList = (1, "0".toList) := by decide
  have h1 : splitExp "0".toList = ("0".toList, none) := by decide
  have h2 : splitDot "0".toList = ("0".toList, none) := by decide
  simp only [parseGoFloat, h0, h1, h2]
  norm_num [digitsVal, isDigit]
  all_goals decide

theorem parseGoFloat_seven : parseGoFloat "7".toList = some 7 := by
  have h0 : splitSign "7".toList = (1, "7".toList) := by decide
  have h1 : splitExp "7".toList = ("7".toList, none) := by decide
  have h2 : splitDot "7".toList = ("7".toList, none) := by decide
  simp only [parseGoFloat, h0, h1, h2]
  norm_num [digitsVal, isDigit]
  all_goals decide

theorem parseGoFloat_trim7 : parseGoFloat (goTrimSpace "7".toList) = some 7 := by
  rw [show goTrimSpace "7".toList = "7".toList from by decide]
  exact parseGoFloat_seven

/-- No prelude trace (mkdir, cleanup of the prior job, probes) contains
a `procStart` event. -/
theorem procStart_not_mem_prelude (reg : Option ProcHandle) (g : Bool) :
    Event.procStart ∉
      Event.mkdirTemp :: (CleanupProcess reg g).1 ++
        [Event.probeStreams, Event.probeDuration] := by
  cases reg with
  | none => cases g <;> decide
  | some h =>
    cases h with
    | mk hp => cases hp <;> cases g <;> decide

/-! ## Claims -/

/-- C1, counterexample: a run in which the engine fails — a terminal
outcome — leaves the FFREPORT log file on disk after `OptimizeMedia`
returns, so it is not the case that no temporary file created during the
run remains. -/
theorem C1_counterexample :
    (OptimizeMedia envEngineFail).result.success = false ∧
    (OptimizeMedia envEngineFail).files.reportFile = true := by decide

/-- C1 (amended): for every run of `OptimizeMedia` that reaches a
terminal outcome, the temporary output file and the progress file never
remain on disk afterwards; and when the rename of the temporary output
to the destination fails, the run surfaces the rename error (the
temporary output again being removed).  The FFREPORT log file, by
contrast, is removed only on full success and remains on disk after an
engine failure or a failed rename. -/
theorem C1_temp_output_and_progress_removed (env : Env) :
    ((OptimizeMedia env).files.tempOutput = false ∧
      (OptimizeMedia env).files.progressFile = false) ∧
    (env.inputExists = true → env.mkdirOk = true →
      (getDuration env.durationOut).isSome = true → env.sizeOk = true →
      env.progressFileOk = true → env.stderrPipeOk = true → env.startOk = true →
      env.exitOk = true → env.renameOk = false →
      (OptimizeMedia env).result = ⟨false, some FailKind.renameFailed⟩) := by
  rcases OptimizeMedia_branches env with
      ⟨c1, hOM⟩ | ⟨c1, c2, hOM⟩ | ⟨c1, c2, c3, hOM⟩ | ⟨c1, c2, c3, c4, hOM⟩ |
      ⟨c1, c2, c3, c4, c5, hOM⟩ | ⟨c1, c2, c3, c4, c5, c6, hOM⟩ |
      ⟨c1, c2, c3, c4, c5, c6, c7, hOM⟩ | ⟨c1, c2, c3, c4, c5, c6, c7, c8, hOM⟩ |
      ⟨c1, c2, c3, c4, c5, c6, c7, c8, c9, hOM⟩ |
      ⟨c1, c2, c3, c4, c5, c6, c7, c8, c9, hOM⟩ <;>
    rw [hOM] <;>
    exact ⟨⟨rfl, rfl⟩, by intro i1 i2 i3 i4 i5 i6 i7 i8 i9; simp_all⟩

/-- C1, witness: the failed-rename run keeps neither temp output nor
progress file and reports the rename failure. -/
theorem C1_witness :
    ((OptimizeMedia envRenameFail).files.tempOutput = false ∧
      (OptimizeMedia envRenameFail).files.progressFile = false) ∧
    (OptimizeMedia envRenameFail).result = ⟨false, some FailKind.renameFailed⟩ :=
  ⟨(C1_temp_output_and_progress_removed envRenameFail).1,
    (C1_temp_output_and_progress_removed envRenameFail).2
      rfl rfl rfl rfl rfl rfl rfl rfl rfl⟩

/-- C2, counterexample: two identical raw samples are both delivered to
the callback — the second is equal to (not strictly greater than) the
last delivered sample, yet it is delivered, so the delivered sequence is
not strictly increasing. -/
theorem C2_counterexample :
    (runMonitor 10 ⟨0, 0⟩
        [.line 0 "out_time_ms=5000000".toList,
          .line 1 "out_time_ms=5000000".toList]).1 = [50, 50] ∧
    ¬ List.Chain' (· < ·) [(50 : ℚ), 50] := by
  constructor
  · simp only [runMonitor, parseProgress_out5M]
    norm_num [progressStallTimeout]
  · simp [List.chain'_cons]

/-- C2 (amended): the monitor delivers every well-formed (non-negative)
parsed sample to the callback in feed order, including repeated and
regressive samples — delivery is not filtered by monotonicity; only the
stall-detection state (`lastProgress`/`lastProgressTime`) is updated
solely on strictly-increasing samples.  Whenever the stall branch does
not fire, the delivered list equals the raw valid-sample list. -/
theorem C2_every_valid_sample_delivered (duration : ℚ) (items : List FeedItem) :
    ∀ st : MonitorState, (runMonitor duration st items).2 = false →
      (runMonitor duration st items).1 = validSamples duration items := by
  induction items with
  | nil => intro st _; rfl
  | cons i rest ih =>
    intro st hterm
    cases i with
    | eofIdle t => exact ih st hterm
    | line t s =>
      by_cases h1 : parseProgress s duration ≥ 0
      · have e2 : validSamples duration (FeedItem.line t s :: rest) =
            parseProgress s duration :: validSamples duration rest := by
          simp only [validSamples]
          rw [if_pos h1]
        by_cases h2 : parseProgress s duration > st.lastProgress
        · have e1 : runMonitor duration st (FeedItem.line t s :: rest) =
              (parseProgress s duration ::
                  (runMonitor duration ⟨parseProgress s duration, t⟩ rest).1,
                (runMonitor duration ⟨parseProgress s duration, t⟩ rest).2) := by
            simp only [runMonitor]
            rw [if_pos h1, if_pos h2]
          rw [e1] at hterm ⊢
          rw [e2]
          exact congrArg (List.cons (parseProgress s duration)) (ih _ hterm)
        · by_cases h3 : t - st.lastProgressTime > progressStallTimeout
          · have e1 : runMonitor duration st (FeedItem.line t s :: rest) =
                ([], true) := by
              simp only [runMonitor]
              rw [if_pos h1, if_neg h2, if_pos h3]
            rw [e1] at hterm
            exact absurd hterm (by decide)
          · have e1 : runMonitor duration st (FeedItem.line t s :: rest) =
                (parseProgress s duration :: (runMonitor duration st rest).1,
                  (runMonitor duration st rest).2) := by
              simp only [runMonitor]
              rw [if_pos h1, if_neg h2, if_neg h3]
            rw [e1] at hterm ⊢
            rw [e2]
            exact congrArg (List.cons (parseProgress s duration)) (ih st hterm)
      · have e1 : runMonitor duration st (FeedItem.line t s :: rest) =
            runMonitor duration st rest := by
          simp only [runMonitor]
          rw [if_neg h1]
        have e2 : validSamples duration (FeedItem.line t s :: rest) =
            validSamples duration rest := by
          simp only [validSamples]
          rw [if_neg h1]
        rw [e1] at hterm ⊢
        rw [e2]
        exact ih st hterm

/-- C2, witness: an empty feed does not stall and delivers exactly its
(empty) valid-sample list. -/
theorem C2_witness :
    (runMonitor 10 ⟨0, 0⟩ []).2 = false ∧
    (runMonitor 10 ⟨0, 0⟩ []).1 = validSamples 10 [] :=
  ⟨rfl, C2_every_valid_sample_delivered 10 [] ⟨0, 0⟩ rfl⟩

/-- C3, counterexample: on the two-track input whose titles are
"Director Commentary" and "English Stereo" (language tags both `und`),
selection does not return index 1 — the code has no title tier and falls
back to the first audio stream. -/
theorem C3_counterexample :
    getEnglishAudioStream
        [⟨0, "audio".toList, "und".toList, "Director Commentary".toList⟩,
          ⟨1, "audio".toList, "und".toList, "English Stereo".toList⟩] ≠
      Except.ok 1 := by
  intro h
  rw [show getEnglishAudioStream
        [⟨0, "audio".toList, "und".toList, "Director Commentary".toList⟩,
          ⟨1, "audio".toList, "und".toList, "English Stereo".toList⟩] =
      Except.ok 0 from rfl] at h
  injection h with h'
  exact absurd h' (by norm_num)

/-- C3 (amended): given tracks `[{0,audio,eng},{1,audio,und}]` the
selection returns index 0; given the two `und` tracks titled "Director
Commentary" and "English Stereo" it returns index 0 (there is no
title-substring tier — with no English language tag the selector falls
back to the first audio stream); and on an input with no audio tracks it
reports the no-suitable-audio-stream error rather than silently
selecting an index. -/
theorem C3_selection_examples :
    getEnglishAudioStream
        [⟨0, "audio".toList, "eng".toList, []⟩,
          ⟨1, "audio".toList, "und".toList, []⟩] = Except.ok 0 ∧
    getEnglishAudioStream
        [⟨0, "audio".toList, "und".toList, "Director Commentary".toList⟩,
          ⟨1, "audio".toList, "und".toList, "English Stereo".toList⟩] =
      Except.ok 0 ∧
    getEnglishAudioStream [⟨0, "video".toList, "und".toList, []⟩] =
      Except.error "no suitable audio stream found".toList ∧
    getEnglishAudioStream [] =
      Except.error "no suitable audio stream found".toList :=
  ⟨rfl, rfl, rfl, rfl⟩

/-- C4, counterexample: the probe output `0` parses to the nonpositive
duration 0, and `getDuration` succeeds on it — it has no
duration-positivity check. -/
theorem C4_counterexample :
    getDuration (some "0".toList) = some 0 ∧ ¬ ((0 : ℚ) > 0) := by
  constructor
  · rw [show getDuration (some "0".toList) =
        parseGoFloat (goTrimSpace "0".toList) from rfl,
      show goTrimSpace "0".toList = "0".toList from by decide]
    exact parseGoFloat_zero
  · norm_num

/-- C4 (amended): `getDuration` fails on non-zero probe exit and on
output that does not parse as a number, but not on a parsed duration
≤ 0 — any parsed value is returned as success; and whenever the probe
fails, `OptimizeMedia` returns a failed result without ever starting the
transcoding process. -/
theorem C4_probe_failure_fatal :
    getDuration none = none ∧
    (∀ s : GoString, parseGoFloat (goTrimSpace s) = none →
      getDuration (some s) = none) ∧
    (∀ (s : GoString) (d : ℚ), parseGoFloat (goTrimSpace s) = some d →
      getDuration (some s) = some d) ∧
    (∀ env : Env, getDuration env.durationOut = none →
      (OptimizeMedia env).result.success = false ∧
      Event.procStart ∉ (OptimizeMedia env).events) := by
  refine ⟨rfl, ?_, ?_, ?_⟩
  · intro s h
    simp [getDuration, h]
  · intro s d h
    simp [getDuration, h]
  · intro env hd
    rcases OptimizeMedia_branches env with
        ⟨c1, hOM⟩ | ⟨c1, c2, hOM⟩ | ⟨c1, c2, c3, hOM⟩ | ⟨c1, c2, c3, c4, hOM⟩ |
        ⟨c1, c2, c3, c4, c5, hOM⟩ | ⟨c1, c2, c3, c4, c5, c6, hOM⟩ |
        ⟨c1, c2, c3, c4, c5, c6, c7, hOM⟩ | ⟨c1, c2, c3, c4, c5, c6, c7, c8, hOM⟩ |
        ⟨c1, c2, c3, c4, c5, c6, c7, c8, c9, hOM⟩ |
        ⟨c1, c2, c3, c4, c5, c6, c7, c8, c9, hOM⟩
    · exact ⟨by rw [hOM],
        by rw [hOM]; exact (by decide : Event.procStart ∉ ([] : List Event))⟩
    · exact ⟨by rw [hOM],
        by rw [hOM]; exact (by decide : Event.procStart ∉ [Event.mkdirTemp])⟩
    · exact ⟨by rw [hOM],
        by rw [hOM]
           exact procStart_not_mem_prelude env.prior env.priorExitsWithinGrace⟩
    all_goals simp [hd] at c3

/-- C4, witness: unparsable output fails, a parsed value is returned
unchecked, and a probe-failure run never starts the engine. -/
theorem C4_witness :
    getDuration (some "N/A".toList) = none ∧
    getDuration (some "7".toList) = some 7 ∧
    ((OptimizeMedia envProbeFail).result.success = false ∧
      Event.procStart ∉ (OptimizeMedia envProbeFail).events) :=
  ⟨C4_probe_failure_fatal.2.1 _ (by decide),
    C4_probe_failure_fatal.2.2.1 _ 7 parseGoFloat_trim7,
    C4_probe_failure_fatal.2.2.2 envProbeFail rfl⟩

/-- C5, counterexample: a stalled run in which the progress feed stops
producing lines entirely (the monitor keeps polling at EOF long past the
5-minute window, at 400s and 100000s, while the process still runs)
never invokes termination — the stall check only runs upon receipt of a
well-formed non-increasing line. -/
theorem C5_counterexample :
    runMonitor 10 ⟨0, 0⟩
        [.line 0 "out_time_ms=1000000".toList, .eofIdle 400, .eofIdle 100000] =
      ([10], false) := by
  simp only [runMonitor, parseProgress_out1M]
  norm_num [progressStallTimeout]

/-- C5 (amended): the monitor invokes termination only upon receipt of a
well-formed non-increasing sample that arrives more than the stall
timeout after the last strictly-increasing one; a feed that produces no
further lines — only EOF polls — never triggers termination, however
long it runs. -/
theorem C5_stall_requires_late_sample :
    (∀ (d : ℚ) (st : MonitorState) (items : List FeedItem),
        items.all isIdle = true → runMonitor d st items = ([], false)) ∧
    (∀ (d : ℚ) (st : MonitorState) (t : Nat) (s : GoString)
        (rest : List FeedItem),
        parseProgress s d ≥ 0 →
        ¬ parseProgress s d > st.lastProgress →
        t - st.lastProgressTime > progressStallTimeout →
        runMonitor d st (.line t s :: rest) = ([], true)) := by
  constructor
  · intro d st items
    induction items generalizing st with
    | nil => intro _; rfl
    | cons i rest ih =>
      intro hall
      cases i with
      | line t s => simp [isIdle] at hall
      | eofIdle t =>
        rw [List.all_cons] at hall
        simp only [isIdle, Bool.true_and] at hall
        exact ih st hall
  · intro d st t s rest h1 h2 h3
    simp only [runMonitor]
    rw [if_pos h1, if_neg h2, if_pos h3]

/-- C5, witness: an idle-only feed never terminates; a late
non-increasing sample does. -/
theorem C5_witness :
    runMonitor 10 ⟨0, 0⟩ [FeedItem.eofIdle 1000] = ([], false) ∧
    runMonitor 10 ⟨0, 0⟩ [FeedItem.line 301 "out_time_ms=0".toList] =
      ([], true) :=
  ⟨C5_stall_requires_late_sample.1 10 ⟨0, 0⟩ [FeedItem.eofIdle 1000] (by decide),
    C5_stall_requires_late_sample.2 10 ⟨0, 0⟩ 301 "out_time_ms=0".toList []
      (ge_of_eq parseProgress_out0)
      (fun hgt => lt_irrefl (0 : ℚ) (parseProgress_out0 ▸ hgt))
      (by decide)⟩

/-- C6: the percentage computed from the well-formed line
`out_time_ms=20000000` with total duration 10 is 200 — the computation
is `elapsed / totalDuration * 100` with no clamping — and the monitor
delivers this out-of-range value to the callback, contradicting the
claimed clamp to [0,100] (which the repository's own test asserts for
delivered values). -/
theorem C6_unclamped_delivery :
    parseProgress "out_time_ms=20000000".toList 10 = 200 ∧
    (runMonitor 10 ⟨0, 0⟩ [.line 0 "out_time_ms=20000000".toList]).1 = [200] ∧
    (100 : ℚ) < 200 := by
  refine ⟨parseProgress_out20M, ?_, by norm_num⟩
  simp only [runMonitor, parseProgress_out20M]
  norm_num

/-- C7, counterexample: the line `out_time_ms=abc` has the progress
prefix but an unparsable value; `parseProgress` returns the percentage 0
for it, not the `-1` no-sample marker. -/
theorem C7_counterexample :
    parseProgress "out_time_ms=abc".toList 10 = 0 ∧ ((0 : ℚ) ≠ -1) := by
  constructor
  · have h1 : goHasPrefix "out_time_ms=abc".toList outTimePrefix = true := by decide
    have h2 : parseGoInt64 (goTrimPrefix "out_time_ms=abc".toList outTimePrefix) =
        none := by decide
    unfold parseProgress
    rw [if_pos h1, h2]
  · norm_num

/-- C7 (amended): `out_time_ms=5000000` at duration 10 yields 50;
`invalid=data` and the empty line yield the `-1` no-sample marker; but
an `out_time_ms=` line whose value does not parse as an integer yields
the percentage 0 (a deliverable sample), not the marker. -/
theorem C7_parse_classification :
    parseProgress "out_time_ms=5000000".toList 10 = 50 ∧
    (∀ d : ℚ, parseProgress "invalid=data".toList d = -1) ∧
    (∀ d : ℚ, parseProgress [] d = -1) ∧
    (∀ (d : ℚ) (line : GoString),
        goHasPrefix line outTimePrefix = true →
        parseGoInt64 (goTrimPrefix line outTimePrefix) = none →
        parseProgress line d = 0) := by
  refine ⟨parseProgress_out5M, ?_, ?_, ?_⟩
  · intro d
    have h : ¬ goHasPrefix "invalid=data".toList outTimePrefix = true := by decide
    unfold parseProgress
    rw [if_neg h]
  · intro d
    have h : ¬ goHasPrefix ([] : GoString) outTimePrefix = true := by decide
    unfold parseProgress
    rw [if_neg h]
  · intro d line h1 h2
    unfold parseProgress
    rw [if_pos h1, h2]

/-- C7, witness: another prefix-with-unparsable-value line yields 0. -/
theorem C7_witness : parseProgress "out_time_ms=12x34".toList 3 = 0 :=
  C7_parse_classification.2.2.2 3 "out_time_ms=12x34".toList (by decide) (by decide)

/-- C8: `CleanupProcess` on a registered, started process first sends
the polite termination signal; the forced kill happens exactly when the
process does not exit within the grace period (5 seconds) — a process
exiting within the grace period is never force-killed — and in every
case the job's handle is removed from the registry. -/
theorem C8_two_phase_escalation (h : ProcHandle) (g : Bool)
    (hp : h.hasProcess = true) :
    (CleanupProcess (some h) g).1.head? = some Event.cleanupSigterm ∧
    (Event.cleanupKill ∈ (CleanupProcess (some h) g).1 ↔ g = false) ∧
    (g = true →
      (CleanupProcess (some h) g).1 =
        [Event.cleanupSigterm, Event.priorExited, Event.cleanupRemove]) ∧
    (g = false →
      (CleanupProcess (some h) g).1 =
        [Event.cleanupSigterm, Event.cleanupKill, Event.cleanupRemove]) ∧
    (CleanupProcess (some h) g).2 = none ∧
    termGracePeriod = 5 := by
  cases h with
  | mk b =>
    cases b with
    | false => exact absurd hp (by decide)
    | true => cases g <;> decide

/-- C8, witness: the graceful-exit case at a concrete handle. -/
theorem C8_witness :
    (CleanupProcess (some ⟨true⟩) true).1.head? = some Event.cleanupSigterm ∧
    (Event.cleanupKill ∈ (CleanupProcess (some ⟨true⟩) true).1 ↔ true = false) ∧
    (true = true →
      (CleanupProcess (some ⟨true⟩) true).1 =
        [Event.cleanupSigterm, Event.priorExited, Event.cleanupRemove]) ∧
    (true = false →
      (CleanupProcess (some ⟨true⟩) true).1 =
        [Event.cleanupSigterm, Event.cleanupKill, Event.cleanupRemove]) ∧
    (CleanupProcess (some ⟨true⟩) true).2 = none ∧
    termGracePeriod = 5 :=
  C8_two_phase_escalation ⟨true⟩ true rfl

/-- C9: when a second `OptimizeMedia` call is made for a key whose prior
job is still active (its process is running), every prefix of the second
call's effect trace has at most one live process under the key — the
prior process dies during cleanup before the new one starts — and
whenever the new process is started at all, the SIGTERM to the prior
process and the removal of its handle from the registry occur, in that
order, before the new process's start. -/
theorem C9_single_flight (env : Env) (hp : env.prior = some ⟨true⟩) :
    (∀ p, p <+: (OptimizeMedia env).events →
      p.foldl liveStep (liveInit env.prior) ≤ 1) ∧
    (Event.procStart ∈ (OptimizeMedia env).events →
      List.Sublist [Event.cleanupSigterm, Event.cleanupRemove, Event.procStart]
        (OptimizeMedia env).events) := by
  rcases OptimizeMedia_branches env with
      ⟨c1, hOM⟩ | ⟨c1, c2, hOM⟩ | ⟨c1, c2, c3, hOM⟩ | ⟨c1, c2, c3, c4, hOM⟩ |
      ⟨c1, c2, c3, c4, c5, hOM⟩ | ⟨c1, c2, c3, c4, c5, c6, hOM⟩ |
      ⟨c1, c2, c3, c4, c5, c6, c7, hOM⟩ | ⟨c1, c2, c3, c4, c5, c6, c7, c8, hOM⟩ |
      ⟨c1, c2, c3, c4, c5, c6, c7, c8, c9, hOM⟩ |
      ⟨c1, c2, c3, c4, c5, c6, c7, c8, c9, hOM⟩ <;>
    rw [hOM, hp] <;>
    rcases hg : env.priorExitsWithinGrace with _ | _ <;>
    exact ⟨liveChk_sound (by decide), by decide⟩

/-- C9, witness: the concrete superseding run. -/
theorem C9_witness :
    (∀ p, p <+: (OptimizeMedia envSupersede).events →
      p.foldl liveStep (liveInit envSupersede.prior) ≤ 1) ∧
    (Event.procStart ∈ (OptimizeMedia envSupersede).events →
      List.Sublist [Event.cleanupSigterm, Event.cleanupRemove, Event.procStart]
        (OptimizeMedia envSupersede).events) :=
  C9_single_flight envSupersede rfl

/-- C10: when the input file does not exist, `OptimizeMedia` returns
`Success = false` with an error and performs no effect at all: its event
trace is empty (no temp directory creation, no cleanup of a prior
process, no probes, no file creation, no process start), the filesystem
is unchanged, and the registry entry for the key is exactly what it was
before the call. -/
theorem C10_missing_input_no_effects (env : Env) (h : env.inputExists = false) :
    OptimizeMedia env =
      ⟨⟨false, some FailKind.inputMissing⟩, [], Files.initial, env.prior⟩ := by
  simp [OptimizeMedia, h]

/-- C10, witness: the concrete missing-input run. -/
theorem C10_witness :
    OptimizeMedia envMissingInput =
      ⟨⟨false, some FailKind.inputMissing⟩, [], Files.initial,
        envMissingInput.prior⟩ :=
  C10_missing_input_no_effects envMissingInput rfl

end MediaOpt
